import Mathlib

/-!
Verification of the bifrost GraphQL gateway against its specification.

The development shallowly embeds the JavaScript sources:
 * the SMW transformer (`src/legacy/variant2/src/services/psychonautwiki/transformer.js`),
 * the wikitext property parser (`WikitextParser`, `src/unnamed/part_001`),
 * the stale-while-revalidate cache (`src/legacy/variant2/src/core/cache.js`),
 * the retrying connector (`src/legacy/variant2/src/services/psychonautwiki/connector.js`),
 * the PsychonautWiki service (`PsychonautWikiService`, `src/unnamed/part_002`),
 * the interaction resolver (`src/legacy/variant2/src/graphql/resolvers.js`).

JavaScript values are modelled by the `JVal` tree (numbers as exact decimals,
which is faithful here because the code only ever parses and passes numbers
through, never computes with them).  The single piece of process-wide mutable
state that the parser touches is the `lastIndex` of the shared global-flag
regex `REGEX.wt_prop_glob`; it is threaded explicitly as a `Nat`.
-/

namespace Bifrost

/-- Decimal number: the value is `mant / 10 ^ exp`.  JavaScript numbers in this
code base are only parsed (by `parseFloat`) and passed through unchanged, so an
exact decimal model is faithful. -/
structure JNum where
  mant : Int
  exp : Nat
deriving DecidableEq

/-- JSON-like JavaScript values. -/
inductive JVal where
  | null
  | undef
  | bool (b : Bool)
  | num (m : JNum)
  | nan
  | str (s : String)
  | arr (xs : List JVal)
  | obj (fields : List (String × JVal))

/-- Integer shorthand for `JVal.num`. -/
def jint (n : Int) : JVal := .num ⟨n, 0⟩

/- Depth of a `JVal` tree, used to provide sufficient fuel for `jsMerge`. -/
mutual
def jvalDepth : JVal → Nat
  | .arr xs => jlistDepth xs + 1
  | .obj fs => jfieldsDepth fs + 1
  | _ => 1
def jlistDepth : List JVal → Nat
  | [] => 0
  | x :: t => max (jvalDepth x) (jlistDepth t)
def jfieldsDepth : List (String × JVal) → Nat
  | [] => 0
  | (_, v) :: t => max (jvalDepth v) (jfieldsDepth t)
end

/-- JavaScript falsiness: `false`, `0`, `NaN`, `""`, `null`, `undefined`. -/
def jsFalsy : JVal → Bool
  | .null => true
  | .undef => true
  | .bool b => !b
  | .num m => m.mant = 0
  | .nan => true
  | .str s => s = ""
  | .arr _ => false
  | .obj _ => false

def jsTruthy (v : JVal) : Bool := !jsFalsy v

/-- Printing an integer the way JavaScript prints it. -/
def intToJsString (i : Int) : String := toString i

/-- Strip trailing zero decimal digits, the way JavaScript normalises a
decimal before printing it. -/
def jnumNormGo : Int → Nat → Int × Nat
  | m, 0 => (m, 0)
  | m, e + 1 => if m % 10 = 0 then jnumNormGo (m / 10) e else (m, e + 1)

def natPad (s : String) (n : Nat) : String :=
  String.mk (List.replicate (n - s.length) '0') ++ s

/-- Printing a decimal number the way JavaScript prints it (for the inputs the
gateway handles: plain decimals, no exponent notation). -/
def jnumToJsString (m : JNum) : String :=
  let (mant, e) := jnumNormGo m.mant m.exp
  if e = 0 then intToJsString mant
  else
    let n := mant.natAbs
    let p : Nat := 10 ^ e
    (if mant < 0 then "-" else "") ++ toString (n / p) ++ "." ++ natPad (toString (n % p)) e

/- JavaScript `String(v)` string coercion. -/
mutual
def jsToString : JVal → String
  | .null => "null"
  | .undef => "undefined"
  | .bool b => if b then "true" else "false"
  | .num m => jnumToJsString m
  | .nan => "NaN"
  | .str s => s
  | .arr xs => jsToStringArr xs
  | .obj _ => "[object Object]"
def jsToStringArr : List JVal → String
  | [] => ""
  | [x] => jsToStringElem x
  | x :: y :: t => jsToStringElem x ++ "," ++ jsToStringArr (y :: t)
def jsToStringElem : JVal → String
  | .null => ""
  | .undef => ""
  | .bool b => if b then "true" else "false"
  | .num m => jnumToJsString m
  | .nan => "NaN"
  | .str s => s
  | .arr xs => jsToStringArr xs
  | .obj _ => "[object Object]"
end

/-- Look a key up in an object's field list (first occurrence). -/
def jgetField : List (String × JVal) → String → Option JVal
  | [], _ => none
  | (k, v) :: rest, key => if k = key then some v else jgetField rest key

/-- Walk a path of keys through nested objects; `none` plays `undefined`. -/
def jget : JVal → List String → Option JVal
  | v, [] => some v
  | .obj fs, k :: rest =>
    (match jgetField fs k with
     | some v => jget v rest
     | none => none)
  | _, _ :: _ => none

/-- The value at a path, with a default used when the path resolves to
`undefined` (this is lodash `_.get(obj, path, default)`). -/
def jgetD (v : JVal) (path : List String) (dflt : JVal) : JVal :=
  (jget v path).getD dflt

/-- Replace the value of an existing key in place, or append a new key at the
end; this is how JavaScript object assignment orders keys. -/
def setInList (fs : List (String × JVal)) (k : String) (x : JVal) : List (String × JVal) :=
  if fs.any (fun kv => kv.1 = k) then fs.map (fun kv => if kv.1 = k then (k, x) else kv)
  else fs ++ [(k, x)]

/-- Lodash `_.set` along a key path: intermediate values that are not objects
are replaced by fresh objects. -/
def jset : JVal → List String → JVal → JVal
  | _, [], x => x
  | v, k :: rest, x =>
    let fs := match v with | .obj fs => fs | _ => []
    let child := match jgetField fs k with | some (.obj cfs) => JVal.obj cfs | _ => JVal.obj []
    .obj (setInList fs k (jset child rest x))

/-- Split a character list on a separator character (like `"a.b".split "."`). -/
def splitCharList (sep : Char) : List Char → List (List Char)
  | [] => [[]]
  | c :: rest =>
    let r := splitCharList sep rest
    if c = sep then [] :: r
    else match r with
      | h :: t => (c :: h) :: t
      | [] => [[c]]

/-- Lodash path strings are split on `.` before walking. -/
def splitOnDot (s : String) : List String :=
  (splitCharList '.' s.data).map String.mk

def jsetPath (v : JVal) (path : String) (x : JVal) : JVal :=
  jset v (splitOnDot path) x

/-- Merge object fields: keys already present keep their position and merge
recursively, new keys are appended in source order (lodash `_.merge`). -/
def mergeFieldsWith (mrg : JVal → JVal → JVal) (fa fb : List (String × JVal)) :
    List (String × JVal) :=
  (fa.map (fun kv =>
    match jgetField fb kv.1 with
    | some bv => (kv.1, mrg kv.2 bv)
    | none => kv))
  ++ fb.filter (fun kv => (jgetField fa kv.1).isNone)

def mergeArrWith (mrg : JVal → JVal → JVal) : List JVal → List JVal → List JVal
  | xa, [] => xa
  | [], b :: rb => b :: mergeArrWith mrg [] rb
  | a :: ra, b :: rb => mrg a b :: mergeArrWith mrg ra rb

def jsMergeGo : Nat → JVal → JVal → JVal
  | 0, _, b => b
  | f + 1, a, b =>
    match a, b with
    | .obj fa, .obj fb => .obj (mergeFieldsWith (jsMergeGo f) fa fb)
    | .arr xa, .arr xb => .arr (mergeArrWith (jsMergeGo f) xa xb)
    | a', .undef => a'
    | _, b' => b'

/-- Lodash `_.merge a b` (deep merge of `b` into `a`).  The fuel is the depth
of `b`, which every recursive call strictly decreases, so it is sufficient. -/
def jsMerge (a b : JVal) : JVal := jsMergeGo (jvalDepth b) a b

/-- Lodash `_.isEmpty`. -/
def jsIsEmpty : JVal → Bool
  | .obj fs => fs.isEmpty
  | .arr xs => xs.isEmpty
  | .str s => s = ""
  | _ => true

/-- The parser's `forceArray` sanitizer: `Array.isArray(val) ? val : [val]`. -/
def forceArray : JVal → JVal
  | .arr xs => .arr xs
  | v => .arr [v]

/-!
Regex machinery.  The parser uses a fixed family of lazy patterns
(`REGEX` in `src/unnamed/part_001`); each is embedded as a concrete matcher
with JavaScript semantics: leftmost match wins, `(.*?)` prefers the shortest
alternative first and never matches a newline, and `$` anchors at the end of
the string.
-/

/-- No newline among the characters (a JavaScript `.` never matches `\n`). -/
def noNL (cs : List Char) : Bool := cs.all (· ≠ '\n')

def listEndsWith (cs suf : List Char) : Bool :=
  decide (suf.length ≤ cs.length) && decide (cs.drop (cs.length - suf.length) = suf)

/-- All decompositions `cs = pre ++ sep :: post` with newline-free `pre`, in
increasing order of `pre` length: the order in which a lazy `(.*?)` followed
by the separator explores them when backtracking. -/
def charSplits (sep : Char) : List Char → List (List Char × List Char)
  | [] => []
  | c :: rest =>
    if c = sep then ([], rest) :: (charSplits sep rest).map (fun p => (c :: p.1, p.2))
    else if c = '\n' then []
    else (charSplits sep rest).map (fun p => (c :: p.1, p.2))

/-- Match `(.*?)_(.*?)_(.*?)SUF$` against the whole of `t` (the match starts
exactly at the head of `t`). -/
def matchSuf3 (suf t : List Char) : Option (List Char × List Char × List Char) :=
  if listEndsWith t suf then
    let core := t.take (t.length - suf.length)
    (charSplits '_' core).findSome? (fun p =>
      (charSplits '_' p.2).findSome? (fun q =>
        if noNL q.2 then some (p.1, q.1, q.2) else none))
  else none

def execSuf3Aux (suf : List Char) : List Char → Option (List Char × List Char × List Char)
  | [] => none
  | c :: rest =>
    match matchSuf3 suf (c :: rest) with
    | some r => some r
    | none => execSuf3Aux suf rest

/-- JavaScript `exec` of `/(.*?)_(.*?)_(.*?)SUF$/` (no sticky flag): try each
start position from the left. -/
def execSuf3 (s suf : String) : Option (String × String × String) :=
  (execSuf3Aux suf.data s.data).map (fun t => (String.mk t.1, String.mk t.2.1, String.mk t.2.2))

def matchSuf2 (suf t : List Char) : Option (List Char × List Char) :=
  if listEndsWith t suf then
    let core := t.take (t.length - suf.length)
    (charSplits '_' core).findSome? (fun p =>
      if noNL p.2 then some (p.1, p.2) else none)
  else none

def execSuf2Aux (suf : List Char) : List Char → Option (List Char × List Char)
  | [] => none
  | c :: rest =>
    match matchSuf2 suf (c :: rest) with
    | some r => some r
    | none => execSuf2Aux suf rest

/-- JavaScript `exec` of `/(.*?)_(.*?)SUF$/`. -/
def execSuf2 (s suf : String) : Option (String × String) :=
  (execSuf2Aux suf.data s.data).map (fun p => (String.mk p.1, String.mk p.2))

def matchSuf1 (suf t : List Char) : Option (List Char) :=
  if listEndsWith t suf then
    let core := t.take (t.length - suf.length)
    if noNL core then some core else none
  else none

def execSuf1Aux (suf : List Char) : List Char → Option (List Char)
  | [] => none
  | c :: rest =>
    match matchSuf1 suf (c :: rest) with
    | some r => some r
    | none => execSuf1Aux suf rest

/-- JavaScript `exec` of `/(.*?)SUF$/`. -/
def execSuf1 (s suf : String) : Option String :=
  (execSuf1Aux suf.data s.data).map String.mk

def matchPrefSuf (pre suf t : List Char) : Option (List Char) :=
  if t.take pre.length = pre then
    let rest := t.drop pre.length
    if listEndsWith rest suf then
      let g := rest.take (rest.length - suf.length)
      if noNL g then some g else none
    else none
  else none

def execPrefSufAux (pre suf : List Char) : List Char → Option (List Char)
  | [] => none
  | c :: rest =>
    match matchPrefSuf pre suf (c :: rest) with
    | some r => some r
    | none => execPrefSufAux pre suf rest

/-- JavaScript `exec` of `/PRE(.*?)SUF$/` (used for `Time_to_(.*?)_tolerance`;
the dispatcher only ever applies it to lowercased names, which realises the
`i` flag). -/
def execPrefSuf (s pre suf : String) : Option String :=
  (execPrefSufAux pre.data suf.data s.data).map String.mk

/-- Find the lazy close of a `[[` opened just before `cs`: the minimal
newline-free `inner` with `cs = inner ++ "]]" ++ rest`. -/
def findCloseBr : List Char → Option (List Char × List Char)
  | ']' :: ']' :: rest => some ([], rest)
  | c :: rest =>
    if c = '\n' then none
    else (findCloseBr rest).map (fun p => (c :: p.1, p.2))
  | [] => none

/-- Find the leftmost match of `/\[\[(.*?)]]/` in `cs`, returning the skipped
prefix, the captured inner text and the remainder after the match. -/
def findWtFuel : Nat → List Char → Option (List Char × List Char × List Char)
  | 0, _ => none
  | _ + 1, [] => none
  | f + 1, '[' :: '[' :: rest =>
    (match findCloseBr rest with
     | some (inner, after) => some ([], inner, after)
     | none => (findWtFuel f ('[' :: rest)).map (fun t => ('[' :: t.1, t.2.1, t.2.2)))
  | f + 1, c :: rest => (findWtFuel f rest).map (fun t => (c :: t.1, t.2.1, t.2.2))

def findWt (cs : List Char) : Option (List Char × List Char × List Char) :=
  findWtFuel (cs.length + 1) cs

/-- Stateful `REGEX.wt_prop_glob.exec` from a given `lastIndex`: returns the
full match text and the updated `lastIndex` (the end of the match). -/
def wtExecFrom (s : String) (li : Nat) : Option (String × Nat) :=
  (findWt (s.data.drop li)).map (fun t =>
    (String.mk ('[' :: '[' :: (t.2.1 ++ ']' :: ']' :: [])), li + t.1.length + t.2.1.length + 4))

/-- `REGEX.wt_prop_glob.test(s)`: a global-flag regex searches from its saved
`lastIndex`, advancing it past the match on success and resetting it to `0` on
failure. -/
def wtGlobTest (s : String) (li : Nat) : Bool × Nat :=
  match wtExecFrom s li with
  | some (_, e) => (true, e)
  | none => (false, 0)

def wtMatchAllFuel : Nat → List Char → List String
  | 0, _ => []
  | f + 1, cs =>
    match findWt cs with
    | some (_, inner, after) =>
      String.mk ('[' :: '[' :: (inner ++ ']' :: ']' :: [])) :: wtMatchAllFuel f after
    | none => []

/-- `s.match(REGEX.wt_prop_glob)`: collects every non-overlapping match from
position `0`; per the ECMAScript spec this sets `lastIndex` to `0` both before
and after the scan, regardless of the regex's prior state. -/
def wtMatchAll (s : String) : List String := wtMatchAllFuel (s.data.length + 1) s.data

/-- `REGEX.wt_prop.exec(s)[1]` (the stateless, non-global twin pattern):
capture group 1 of the first match. -/
def wtExecInner (s : String) : Option String := (findWt s.data).map (fun t => String.mk t.2.1)

/-- Find the leftmost match of `/(\[\[.*?\|.*?]])/` (named wiki links),
returning skipped prefix, full match text and remainder. -/
def findNamedFuel : Nat → List Char → Option (List Char × List Char × List Char)
  | 0, _ => none
  | _ + 1, [] => none
  | f + 1, '[' :: '[' :: rest =>
    (match (charSplits '|' rest).findSome? (fun p => (findCloseBr p.2).map (fun q => (p.1, q.1, q.2))) with
     | some (x, y, after) =>
       some ([], '[' :: '[' :: (x ++ '|' :: (y ++ ']' :: ']' :: [])), after)
     | none => (findNamedFuel f ('[' :: rest)).map (fun t => ('[' :: t.1, t.2.1, t.2.2)))
  | f + 1, c :: rest => (findNamedFuel f rest).map (fun t => (c :: t.1, t.2.1, t.2.2))

def namedMatchAllFuel : Nat → List Char → List String
  | 0, _ => []
  | f + 1, cs =>
    match findNamedFuel (cs.length + 1) cs with
    | some (_, full, after) => String.mk full :: namedMatchAllFuel f after
    | none => []

/-- `s.match(REGEX.wt_named_link)`: all named-link matches. -/
def namedMatchAll (s : String) : List String := namedMatchAllFuel (s.data.length + 1) s.data

/-- Index of the first occurrence of `needle` in `hay`. -/
def listIndexOf (hay needle : List Char) : Option Nat :=
  if hay.take needle.length = needle then some 0
  else match hay with
    | [] => none
    | _ :: rest => (listIndexOf rest needle).map (· + 1)

/-- JavaScript `s.replace(target, repl)` with a plain-string target: replace
the first occurrence only; if absent the string is unchanged. -/
def strReplaceFirst (s target repl : String) : String :=
  match listIndexOf s.data target.data with
  | some i => String.mk (s.data.take i ++ repl.data ++ s.data.drop (i + target.data.length))
  | none => s

/-- `m.slice(2, -2)`. -/
def sliceInner (m : String) : String :=
  let l := m.data.drop 2
  String.mk (l.take (l.length - 2))

/-- `content.split('|').pop()`. -/
def afterLastPipe (s : String) : String :=
  String.mk ((splitCharList '|' s.data).getLastD [])

def lowerTake (cs : List Char) (n : Nat) : List Char := (cs.take n).map Char.toLower

/-- Find the lazy case-insensitive close `</sub>` or `</sup>`: minimal
newline-free inner text. -/
def findCloseTag : List Char → Option (List Char × List Char)
  | [] => none
  | c :: rest =>
    if lowerTake (c :: rest) 6 = "</sub>".data ∨ lowerTake (c :: rest) 6 = "</sup>".data then
      some ([], (c :: rest).drop 6)
    else if c = '\n' then none
    else (findCloseTag rest).map (fun p => (c :: p.1, p.2))

/-- Find the leftmost match of `/<su[bp]>(.*?)<\/su[bp]>/i`. -/
def findSubSupFuel : Nat → List Char → Option (List Char × List Char × List Char)
  | 0, _ => none
  | _ + 1, [] => none
  | f + 1, c :: rest =>
    if lowerTake (c :: rest) 5 = "<sub>".data ∨ lowerTake (c :: rest) 5 = "<sup>".data then
      match findCloseTag ((c :: rest).drop 5) with
      | some (inner, after) => some ([], inner, after)
      | none => (findSubSupFuel f rest).map (fun t => (c :: t.1, t.2.1, t.2.2))
    else (findSubSupFuel f rest).map (fun t => (c :: t.1, t.2.1, t.2.2))

def replaceSubSupFuel : Nat → List Char → List Char
  | 0, cs => cs
  | f + 1, cs =>
    match findSubSupFuel (cs.length + 1) cs with
    | some (sk, inner, after) => sk ++ inner ++ replaceSubSupFuel f after
    | none => cs

/-- `out.replace(REGEX.wt_sub_sup, "$1")`: global replacement keeping the
inner text of every `<sub>`/`<sup>` wrapper. -/
def replaceSubSup (s : String) : String :=
  String.mk (replaceSubSupFuel (s.data.length + 1) s.data)

/-- The body of `WikitextParser._sanitizeText` for non-empty strings. -/
def sanitizeStr (s : String) : String :=
  let out1 := (namedMatchAll s).foldl
    (fun out m => strReplaceFirst out m (afterLastPipe (sliceInner m))) s
  let out2 := (wtMatchAll out1).foldl
    (fun out m => strReplaceFirst out m (sliceInner m)) out1
  replaceSubSup out2

/-- `WikitextParser._sanitizeText`: non-strings and the empty string are
returned unchanged. -/
def sanitizeText : JVal → JVal
  | .str s => if s = "" then .str s else .str (sanitizeStr s)
  | v => v

/-!
The SMW transformer
(`src/legacy/variant2/src/services/psychonautwiki/transformer.js`).
-/

/-- `_stripSMWProp`: remove the first occurrence of `/#1?0#/`. -/
def stripSMWAux : List Char → List Char
  | [] => []
  | c :: rest =>
    if c = '#' then
      match rest with
      | '1' :: '0' :: '#' :: tl => tl
      | '0' :: '#' :: tl => tl
      | _ => c :: stripSMWAux rest
    else c :: stripSMWAux rest

def stripSMWProp (s : String) : String := String.mk (stripSMWAux s.data)

def isDigitCh (c : Char) : Bool := decide ('0' ≤ c) && decide (c ≤ '9')

def digitsToNat (ds : List Char) : Nat :=
  ds.foldl (fun a c => a * 10 + (c.toNat - '0'.toNat)) 0

/-- JavaScript `parseFloat` on a character list (plain decimal syntax, which
is the only form SMW number payloads use). -/
def parseFloatChars (cs0 : List Char) : JVal :=
  let cs1 := cs0.dropWhile (fun c => c = ' ' ∨ c = '\t' ∨ c = '\n' ∨ c = '\r')
  let sgn : Int := match cs1 with
    | '-' :: _ => -1
    | _ => 1
  let cs : List Char := match cs1 with
    | '-' :: t => t
    | '+' :: t => t
    | _ => cs1
  let intd := cs.takeWhile isDigitCh
  let rest := cs.drop intd.length
  match rest with
  | '.' :: t =>
    let frac := t.takeWhile isDigitCh
    if intd.isEmpty && frac.isEmpty then .nan
    else .num ⟨sgn * ((digitsToNat intd : Int) * (10 : Int) ^ frac.length + (digitsToNat frac : Int)), frac.length⟩
  | _ => if intd.isEmpty then .nan else .num ⟨sgn * (digitsToNat intd : Int), 0⟩

def jsParseFloat (v : JVal) : JVal :=
  match v with
  | .num m => .num m
  | v => parseFloatChars (jsToString v).data

/-- The `{type, prop}` pair produced by `_parseDataItems`. -/
structure SMWVal where
  typeName : JVal
  prop : JVal

/-- Value equality of a decimal against an integer (JavaScript `===` on
numbers compares values). -/
def numIs (m : JNum) (k : Int) : Bool := m.mant = k * (10 : Int) ^ m.exp

def typeIs (v : JVal) (k : Int) : Bool :=
  match v with
  | .num m => numIs m k
  | _ => false

/-- `_processDataItem({type, item})`. -/
def processDataItem (it : JVal) : JVal :=
  let t := jgetD it ["type"] .undef
  let item := jgetD it ["item"] .undef
  if typeIs t 1 then jsParseFloat item
  else if typeIs t 9 then (match item with | .str s => .str (stripSMWProp s) | w => w)
  else item

/-- `_induceItemType(items)`: looks at the first item only. -/
def induceItemType (items : List JVal) : JVal :=
  match items with
  | [] => .null
  | it :: _ =>
    if jsFalsy it then .null
    else
      let t := jgetD it ["type"] .undef
      if typeIs t 1 then .str "number"
      else if typeIs t 2 then .str "string"
      else if typeIs t 9 then .str "property"
      else .null

/-- `_integrateDataItems`: a single data item stays scalar, several become a
list (arity matters downstream). -/
def integrateDataItems (items : List JVal) : JVal :=
  match items.map processDataItem with
  | [x] => x
  | xs => .arr xs

def parseDataItems (items : List JVal) : SMWVal :=
  ⟨induceItemType items, integrateDataItems items⟩

def asArr : JVal → List JVal
  | .arr xs => xs
  | _ => []

def startsWithUnd (s : String) : Bool := s.data.take 1 = ['_']

/-- `parseItemList`: internal properties (leading `_`) are skipped. -/
def parseItemList (itemList : List JVal) : List (String × SMWVal) :=
  itemList.foldl (fun acc e =>
    match jgetD e ["property"] .undef with
    | .str p =>
      if startsWithUnd p then acc
      else acc ++ [(p, parseDataItems (asArr (jgetD e ["dataitem"] .undef)))]
    | _ => acc) []

/-- `SMWTransformer.parse({query})`: `(stripped subject, property list)`. -/
def transformerParse (payload : JVal) : String × List (String × SMWVal) :=
  let subject := jgetD payload ["query", "subject"] .undef
  let data := jgetD payload ["query", "data"] .undef
  ((match subject with | .str s => stripSMWProp s | _ => ""), parseItemList (asArr data))

/-!
The wikitext property parser (`WikitextParser`, `src/unnamed/part_001`).
The `lastIndex` of the module-level global-flag regex `REGEX.wt_prop_glob` is
the only cross-call state; it is threaded as the `li : Nat` argument.
-/

def toLowerStr (s : String) : String := String.mk (s.data.map Char.toLower)

/-- `p.replace(/#$/, '').replace(/_/g, ' ')` from `_mapClass`. -/
def classClean (s : String) : String :=
  let base := if s.data.getLast? = some '#' then s.data.take (s.data.length - 1) else s.data
  String.mk (base.map (fun c => if c = '_' then ' ' else c))

/-- `_mapClass(target, prop)`: `[].concat(prop).map(clean)`; a non-string
entry makes `p.replace` throw a `TypeError` (caught by the dispatcher). -/
def mapClass (target : String) (v : JVal) : Except Unit (String × JVal) :=
  let items := match v with | .arr xs => xs | w => [w]
  let cleaned : Except Unit (List JVal) := items.mapM (fun p =>
    match p with
    | .str s => Except.ok (JVal.str (classClean s))
    | _ => Except.error ())
  match cleaned with
  | .ok l => .ok (target, JVal.arr l)
  | .error e => .error e

/-- `_mapCrossTolerance(prop)` with the shared global regex state threaded:
`test` advances or resets `lastIndex`; `prop.match` (reached only when `test`
succeeded) throws a `TypeError` when `prop` is not a string, leaving
`lastIndex` where `test` put it; a string `prop` is rescanned from `0`,
leaving `lastIndex` reset to `0`. -/
def mapCrossTolerance (v : JVal) (li : Nat) : Except (Unit × Nat) ((String × JVal) × Nat) :=
  match wtGlobTest (jsToString v) li with
  | (false, li2) => .ok (("crossTolerances", .arr []), li2)
  | (true, li2) =>
    match v with
    | .str s =>
      (match (wtMatchAll s).mapM (fun m => wtExecInner m) with
       | some inners => .ok (("crossTolerances", .arr (inners.map JVal.str)), 0)
       | none => .error ((), 0))
    | _ => .error ((), li2)

/-- The `_flatMetaProps` table. -/
def flatTarget : String → Option String
  | "addiction_potential" => some "addictionPotential"
  | "uncertaininteraction" => some "uncertainInteractions"
  | "unsafeinteraction" => some "unsafeInteractions"
  | "dangerousinteraction" => some "dangerousInteractions"
  | "effect" => some "effects"
  | "common_name" => some "commonNames"
  | "systematic_name" => some "systematicName"
  | _ => none

/-- `_sanitizeIfNeeded`: falsy values pass through, then the `_sanitizers`
table keyed on the target name. -/
def sanitizeIfNeeded (target : String) (v : JVal) : JVal :=
  if jsFalsy v then v
  else if target = "addictionPotential" ∨ target = "systematicName" then sanitizeText v
  else if target = "toxicity" then (match v with | .arr xs => .arr (xs.map sanitizeText) | w => w)
  else if target = "uncertainInteractions" ∨ target = "unsafeInteractions"
        ∨ target = "dangerousInteractions" ∨ target = "effects" ∨ target = "commonNames" then
    forceArray v
  else v

/-- `WikitextParser._dispatchProperty`: the regex dispatch table, then the
flat table, then the mapped table (whose mappers run inside a `try`/`catch`
with the `_.set(map, propName, …)` fallback). -/
def dispatchProperty (map : JVal) (propName : String) (propValue : JVal) (li : Nat) : JVal × Nat :=
  match execSuf3 propName "_time" with
  | some (g1, g2, g3) =>
    (jsetPath map ("roa." ++ g1 ++ ".duration." ++ g3 ++ "." ++ g2) propValue, li)
  | none =>
  match execSuf3 propName "_dose" with
  | some (g1, g2, g3) =>
    (jsetPath map ("roa." ++ g1 ++ ".dose." ++ g3 ++ "." ++ g2) propValue, li)
  | none =>
  match execSuf2 propName "_dose" with
  | some (g1, g2) => (jsetPath map ("roa." ++ g1 ++ ".dose." ++ g2) propValue, li)
  | none =>
  match execSuf2 propName "_bioavailability" with
  | some (g1, g2) => (jsetPath map ("roa." ++ g1 ++ ".bioavailability." ++ g2) propValue, li)
  | none =>
  match execSuf1 propName "_dose_units" with
  | some g1 => (jsetPath map ("roa." ++ g1 ++ ".dose.units") propValue, li)
  | none =>
  match execSuf2 propName "_time_units" with
  | some (g1, g2) => (jsetPath map ("roa." ++ g1 ++ ".duration." ++ g2 ++ ".units") propValue, li)
  | none =>
  match execPrefSuf propName "time_to_" "_tolerance" with
  | some g1 => (jsetPath map ("tolerance." ++ g1) propValue, li)
  | none =>
    let map1 := match flatTarget propName with
      | some target => jsetPath map target (sanitizeIfNeeded target propValue)
      | none => map
    if propName = "cross-tolerance" then
      match mapCrossTolerance propValue li with
      | .ok ((target, val), li2) => (jsetPath map1 target (sanitizeIfNeeded target val), li2)
      | .error (_, li2) => (jsetPath map1 propName (sanitizeIfNeeded propName propValue), li2)
    else if propName = "featured" then
      (jsetPath map1 "featured"
        (sanitizeIfNeeded "featured" (.bool (match propValue with | .str s => s = "t" | _ => false))), li)
    else if propName = "toxicity" then
      (jsetPath map1 "toxicity" (sanitizeIfNeeded "toxicity" (forceArray propValue)), li)
    else if propName = "psychoactive_class" then
      (match mapClass "class.psychoactive" propValue with
       | .ok (target, val) => (jsetPath map1 target (sanitizeIfNeeded target val), li)
       | .error _ => (jsetPath map1 propName (sanitizeIfNeeded propName propValue), li))
    else if propName = "chemical_class" then
      (match mapClass "class.chemical" propValue with
       | .ok (target, val) => (jsetPath map1 target (sanitizeIfNeeded target val), li)
       | .error _ => (jsetPath map1 propName (sanitizeIfNeeded propName propValue), li))
    else if propName = "common_name" then
      (match mapClass "commonNames" propValue with
       | .ok (target, val) => (jsetPath map1 target (sanitizeIfNeeded target val), li)
       | .error _ => (jsetPath map1 propName (sanitizeIfNeeded propName propValue), li))
    else (map1, li)

/-- `WikitextParser._processProperties`: dispatch every `(name, {prop})` pair
(with the name lowercased), then emit the `roas` list, each entry being the
ROA record merged with its `name` key, preserving insertion order. -/
def processProperties (propSet : String × List (String × SMWVal)) (li : Nat) : JVal × Nat :=
  let folded := propSet.2.foldl
    (fun acc p => dispatchProperty acc.1 (toLowerStr p.1) p.2.prop acc.2) (JVal.obj [], li)
  let map := folded.1
  let rawROAMap := jgetD map ["roa"] (.obj [])
  let keys : List String := match rawROAMap with | .obj fs => fs.map (fun kv => kv.1) | _ => []
  let mappedROAs := keys.map (fun k => jsMerge (jgetD rawROAMap [k] .undef) (.obj [("name", .str k)]))
  (jset map ["roas"] (.arr mappedROAs), folded.2)

/-- `WikitextParser.parseFromSMW`: the transformer followed by property
processing. -/
def parseFromSMW (payload : JVal) (li : Nat) : JVal × Nat :=
  processProperties (transformerParse payload) li

/-!
The stale-while-revalidate cache (`src/legacy/variant2/src/core/cache.js`).

JavaScript is single-threaded: the body of `get` contains no `await` on the
hit and stale paths, so each call's synchronous part runs atomically;
"concurrent" calls are interleaved at `await` points only.  `cacheGet` is
that synchronous part.  The producer is modelled by its outcome
(`Except ε α`); `now` is `Date.now()` at entry and `nowDone` is `Date.now()`
when the producer settles (used for the stored timestamp).
-/

/-- An entry of the `_store` map. -/
structure CacheEntry (α : Type) where
  timestamp : Nat
  value : α

/-- The mutable state of `StaleWhileRevalidateCache`: the entry map `_store`
and the keys marked in `_refreshing`. -/
structure CacheState (α : Type) where
  store : List (String × CacheEntry α)
  refreshing : List String

/-- JavaScript `Map.get`. -/
def alistGet {β : Type} : List (String × β) → String → Option β
  | [], _ => none
  | (k, v) :: rest, key => if k = key then some v else alistGet rest key

/-- JavaScript `Map.set`: replace in place or append. -/
def alistSet {β : Type} (l : List (String × β)) (k : String) (x : β) : List (String × β) :=
  if l.any (fun kv => kv.1 = k) then l.map (fun kv => if kv.1 = k then (k, x) else kv)
  else l ++ [(k, x)]

/-- How a `get` call returned, distinguishing the four paths of the source:
`missAwait` is the only path that awaits the producer; `staleSpawn` starts a
background refresh; `hit` and `staleNoSpawn` touch no producer. -/
inductive GetOutcome (α ε : Type) where
  | missAwait (result : Except ε α)
  | hit (v : α)
  | staleNoSpawn (v : α)
  | staleSpawn (v : α)

/-- `_fetchAndCache`: store `{timestamp: Date.now(), value}` on success and
return the value; rethrow on failure without storing. -/
def fetchAndCache {α ε : Type} (st : CacheState α) (key : String) (outcome : Except ε α)
    (nowDone : Nat) : Except ε α × CacheState α :=
  match outcome with
  | .ok v => (.ok v, ⟨alistSet st.store key ⟨nowDone, v⟩, st.refreshing⟩)
  | .error e => (.error e, st)

/-- The synchronous part of `StaleWhileRevalidateCache.get`. -/
def cacheGet {α ε : Type} (st : CacheState α) (key : String) (now ttl : Nat)
    (producer : Except ε α) (nowDone : Nat) : GetOutcome α ε × CacheState α :=
  match alistGet st.store key with
  | none =>
    let r := fetchAndCache st key producer nowDone
    (.missAwait r.1, r.2)
  | some entry =>
    if ttl < now - entry.timestamp then
      if st.refreshing.contains key then (.staleNoSpawn entry.value, st)
      else (.staleSpawn entry.value, ⟨st.store, key :: st.refreshing⟩)
    else (.hit entry.value, st)

/-- Completion of the background chain
`_fetchAndCache(key, p).catch(log).finally(() => refreshing.delete(key))`:
on success the entry is replaced with a fresh timestamp, on failure the store
is untouched; either way the refresh mark is deleted, and no error escapes
(the `catch` only logs, so the type has no error component). -/
def backgroundComplete {α ε : Type} (st : CacheState α) (key : String) (outcome : Except ε α)
    (nowDone : Nat) : CacheState α :=
  let st1 := (fetchAndCache st key outcome nowDone).2
  ⟨st1.store, st1.refreshing.erase key⟩

/-- Number of producer invocations a `get` call causes (awaited or spawned). -/
def producerCalls {α ε : Type} : GetOutcome α ε → Nat
  | .missAwait _ => 1
  | .staleSpawn _ => 1
  | _ => 0

/-- The value a `get` call hands back to its caller (`none` when the call
rejects, which only the miss path can do). -/
def returnedValue {α ε : Type} : GetOutcome α ε → Option α
  | .missAwait (.ok v) => some v
  | .missAwait (.error _) => none
  | .hit v => some v
  | .staleNoSpawn v => some v
  | .staleSpawn v => some v

/-- N sequential `get` calls for the same key (the synchronous parts of N
concurrent callers, which the event loop serialises), with no background
completion in between. -/
def runGets {α ε : Type} (key : String) (now ttl : Nat) (producer : Except ε α) (nowDone : Nat) :
    Nat → CacheState α → List (GetOutcome α ε) × CacheState α
  | 0, st => ([], st)
  | n + 1, st =>
    let r := cacheGet st key now ttl producer nowDone
    let rest := runGets key now ttl producer nowDone n r.2
    (r.1 :: rest.1, rest.2)

/-!
The retrying connector
(`src/legacy/variant2/src/services/psychonautwiki/connector.js`).
`attempt i` is the outcome of the `i`-th HTTP attempt (`fetch` + `res.ok`
check + JSON decode, zero-based).  The result carries the attempt count and
the list of back-off delays waited, in order.
-/

/-- The `for (let i = 0; i <= retries; i++)` loop of `_fetchWithRetry`; the
fuel argument is the number of retries still allowed after attempt `i` (zero
fuel means `i === retries`, where the error is rethrown). -/
def fetchLoop {α ε : Type} (attempt : Nat → Except ε α) : Nat → Nat → Except ε α × Nat × List Nat
  | i, 0 =>
    (match attempt i with
     | .ok v => (.ok v, 1, [])
     | .error e => (.error e, 1, []))
  | i, fuel + 1 =>
    match attempt i with
    | .ok v => (.ok v, 1, [])
    | .error _ =>
      let r := fetchLoop attempt (i + 1) fuel
      (r.1, r.2.1 + 1, 1000 * (i + 1) :: r.2.2)

/-- `_fetchWithRetry(url, retries = 3)`. -/
def fetchWithRetry {α ε : Type} (attempt : Nat → Except ε α) (retries : Nat) :
    Except ε α × Nat × List Nat :=
  fetchLoop attempt 0 retries

/-!
The PsychonautWiki service (`PsychonautWikiService`, `src/unnamed/part_002`).
The connector is abstracted as an oracle from request parameters to the
parsed JSON response; every service call appends the parameters it issued to
a trace, which is how "no upstream call" and "exactly these lookups" are
stated.  The global regex state `li` is threaded through enrichment because
enrichment runs the wikitext parser.
-/

/-- Parameters of a `connector.get` call: an `ask` query or a
`browsebysubject` lookup. -/
inductive PWParams where
  | ask (query : String)
  | browse (subject : JVal)

def joinWith (sep : String) : List String → String
  | [] => ""
  | [x] => x
  | x :: y :: t => x ++ sep ++ joinWith sep (y :: t)

/-- The connector oracle: parameters to parsed JSON response. -/
def Oracle : Type := PWParams → JVal

/-- `_renderPagination(limit, offset)`: segments appended only for truthy
values (in JavaScript `0` and `undefined` are falsy). -/
def renderPagination (limit offset : Option Int) : String :=
  (match limit with
   | some n => if n = 0 then "" else "|limit=" ++ intToJsString n
   | none => "") ++
  (match offset with
   | some n => if n = 0 then "" else "|offset=" ++ intToJsString n
   | none => "")

/-- `_mapTextUrl(obj)`: lodash `_.map` over the values, projecting each to
`{name: item.fulltext, url: item.fullurl}`. -/
def mapTextUrl (results : JVal) : List JVal :=
  let items : List JVal := match results with
    | .obj fs => fs.map (fun kv => kv.2)
    | .arr xs => xs
    | _ => []
  items.map (fun item => .obj [("name", jgetD item ["fulltext"] .undef),
                              ("url", jgetD item ["fullurl"] .undef)])

/-- `_lookupWithPagination`: one `ask` call, returning
`_.get(res, 'query.results', {})`. -/
def lookupWithPagination (oracle : Oracle) (q : String) (limit offset : Option Int) :
    JVal × List PWParams :=
  let params := PWParams.ask (q ++ renderPagination limit offset)
  (jgetD (oracle params) ["query", "results"] (.obj []), [params])

/-- `_getSemanticProps(substance)`: a `browsebysubject` call fed to the
wikitext parser. -/
def getSemanticProps (oracle : Oracle) (subject : JVal) (li : Nat) :
    JVal × List PWParams × Nat :=
  let params := PWParams.browse subject
  let r := parseFromSMW (oracle params) li
  (r.1, [params], r.2)

/-- `_enrichResults(results)`: project to `{name, url}` and merge in each
item's semantic record, preserving item order. -/
def enrichResults (oracle : Oracle) (results : JVal) (li : Nat) :
    List JVal × List PWParams × Nat :=
  (mapTextUrl results).foldl (fun acc item =>
    let sem := getSemanticProps oracle (jgetD item ["name"] .undef) acc.2.2
    (acc.1 ++ [jsMerge item sem.1], acc.2.1 ++ sem.2.1, sem.2.2)) ([], [], li)

/-- `_getByClass(classType, className, limit, offset)`. -/
def getByClass (oracle : Oracle) (classType className : String) (limit offset : Option Int) :
    List JVal × List PWParams :=
  let params := PWParams.ask ("[[" ++ classType ++ "::" ++ className
    ++ "]]|[[Category:Psychoactive substance]]" ++ renderPagination limit offset)
  (mapTextUrl (jgetD (oracle params) ["query", "results"] (.obj [])), [params])

/-- `getEffectSubstances({effect, limit, offset})` with `effect` already an
array (as the `getSubstances` delegation passes it). -/
def getEffectSubstances (oracle : Oracle) (effect : List String) (limit offset : Option Int) :
    List JVal × List PWParams :=
  let query := joinWith "|" (effect.map (fun e => "[[Effect::" ++ e ++ "]]"))
  let params := PWParams.ask (query ++ "|[[Category:Psychoactive substance]]"
    ++ renderPagination limit offset)
  (mapTextUrl (jgetD (oracle params) ["query", "results"] (.obj [])), [params])

/-- Truthiness of an optional string argument (GraphQL passes a string or
leaves the argument `undefined`). -/
def optTruthy : Option String → Bool
  | some s => s ≠ ""
  | none => false

/-- String interpolation of an optional argument (`undefined` interpolates as
the text `"undefined"`). -/
def jsTemplateOptStr : Option String → String
  | some s => s
  | none => "undefined"

/-- Arguments of `getSubstances`. -/
structure SubstancesArgs where
  chemicalClass : Option String
  psychoactiveClass : Option String
  effect : Option String
  query : Option String
  limit : Option Int
  offset : Option Int

/-- `PsychonautWikiService.getSubstances`: the mutual-exclusion guard, the
three delegations, then the query branch with its two fallback lookups and
enrichment.  Returns the result (or thrown error), the trace of connector
calls in order, and the threaded regex state. -/
def getSubstances (oracle : Oracle) (a : SubstancesArgs) (li : Nat) :
    Except String (List JVal) × List PWParams × Nat :=
  if 2 ≤ ([a.effect, a.query, a.chemicalClass, a.psychoactiveClass].filter optTruthy).length then
    (.error "Substances: `chemicalClass`, `psychoactiveClass`, `effect` and `query` are mutually exclusive.",
     [], li)
  else if optTruthy a.chemicalClass then
    let r := getByClass oracle "Chemical class" (jsTemplateOptStr a.chemicalClass) a.limit a.offset
    (.ok r.1, r.2, li)
  else if optTruthy a.psychoactiveClass then
    let r := getByClass oracle "Psychoactive class" (jsTemplateOptStr a.psychoactiveClass) a.limit a.offset
    (.ok r.1, r.2, li)
  else if optTruthy a.effect then
    let r := getEffectSubstances oracle [jsTemplateOptStr a.effect] a.limit a.offset
    (.ok r.1, r.2, li)
  else
    let articleQuery :=
      if optTruthy a.query then ":" ++ jsTemplateOptStr a.query else "Category:Psychoactive substance"
    let l1 := lookupWithPagination oracle ("[[" ++ articleQuery ++ "]]") a.limit a.offset
    let step2 : JVal × List PWParams :=
      if jsIsEmpty l1.1 then
        let l2 := lookupWithPagination oracle
          ("[[common_name::" ++ jsTemplateOptStr a.query ++ "]]|[[Category:psychoactive_substance]]")
          a.limit a.offset
        (l2.1, l1.2 ++ l2.2)
      else l1
    let step3 : JVal × List PWParams :=
      if jsIsEmpty step2.1 then
        let l3 := lookupWithPagination oracle
          ("[[systematic_name::" ++ jsTemplateOptStr a.query ++ "]]|[[Category:psychoactive_substance]]")
          a.limit a.offset
        (l3.1, step2.2 ++ l3.2)
      else step2
    let er := enrichResults oracle step3.1 li
    (.ok er.1, step3.2 ++ er.2.1, er.2.2)

/-!
The interaction resolver (`resolveInteractions`,
`src/legacy/variant2/src/graphql/resolvers.js`).  The per-name service call
`getSubstances({query: name, limit: 1, offset: 0})` is abstracted as a
`lookup` oracle from the raw name to the substance list it resolves to.
-/

/-- `resolveInteractions(interactions, ctx)`: `null` unless the field is an
array; otherwise one entry per name, the single match if exactly one
substance was found, else the `{name}` stub. -/
def resolveInteractions (lookup : JVal → List JVal) (interactions : JVal) :
    Option (List JVal) :=
  match interactions with
  | .arr names => some (names.map (fun name =>
      match lookup name with
      | [r] => r
      | _ => .obj [("name", name)]))
  | _ => none

/-!
Concrete payloads used by the claims about the parser.
-/

/-- The `browsebysubject` payload of claim C1: `oral_common_min_dose=10`,
`oral_common_max_dose=20`, `oral_dose_units="mg"`,
`Time_to_half_tolerance="3 days"`, `psychoactive_class="stimulant_"`,
`dangerousinteraction=["Alcohol","Cocaine"]`. -/
def c1payload : JVal := .obj [("query", .obj [
  ("subject", .str "Aspirin#0#"),
  ("data", .arr [
    .obj [("property", .str "oral_common_min_dose"),
          ("dataitem", .arr [.obj [("type", jint 1), ("item", .str "10")]])],
    .obj [("property", .str "oral_common_max_dose"),
          ("dataitem", .arr [.obj [("type", jint 1), ("item", .str "20")]])],
    .obj [("property", .str "oral_dose_units"),
          ("dataitem", .arr [.obj [("type", jint 2), ("item", .str "mg")]])],
    .obj [("property", .str "Time_to_half_tolerance"),
          ("dataitem", .arr [.obj [("type", jint 2), ("item", .str "3 days")]])],
    .obj [("property", .str "psychoactive_class"),
          ("dataitem", .arr [.obj [("type", jint 2), ("item", .str "stimulant_")]])],
    .obj [("property", .str "dangerousinteraction"),
          ("dataitem", .arr [.obj [("type", jint 2), ("item", .str "Alcohol")],
                             .obj [("type", jint 2), ("item", .str "Cocaine")]])]
  ])])]

/-- The record the parser produces for `c1payload` (from the initial regex
state). -/
def c1record : JVal := (parseFromSMW c1payload 0).1

/-- A structurally valid payload whose `Cross-tolerance` property is
multi-valued, with exactly one `[[link]]` among its values: the transformer
hands the parser an array, `test` advances the shared regex, and the
`prop.match` `TypeError` leaves the advanced state behind. -/
def c2payloadArr : JVal := .obj [("query", .obj [
  ("subject", .str "X#0#"),
  ("data", .arr [
    .obj [("property", .str "Cross-tolerance"),
          ("dataitem", .arr [.obj [("type", jint 2), ("item", .str "[[A]]")],
                             .obj [("type", jint 2), ("item", .str "plain")]])]
  ])])]

/-- A payload whose `Cross-tolerance` property is a single string containing
two `[[link]]` occurrences (the ordinary upstream shape). -/
def c2payloadStr : JVal := .obj [("query", .obj [
  ("subject", .str "X#0#"),
  ("data", .arr [
    .obj [("property", .str "Cross-tolerance"),
          ("dataitem", .arr [.obj [("type", jint 2),
                                   ("item", .str "[[Stimulants]], [[x]]")]])]
  ])])]

/-!
Helper lemmas about the threaded regex state.
-/

/-- The state component of a `_mapCrossTolerance` outcome (normal or thrown). -/
def ctResultState : Except (Unit × Nat) ((String × JVal) × Nat) → Nat
  | .ok (_, li) => li
  | .error (_, li) => li

theorem wtGlobTest_snd_of_false (s : String) (li : Nat)
    (h : (wtGlobTest s li).1 = false) : (wtGlobTest s li).2 = 0 := by
  cases hw : wtExecFrom s li with
  | none => simp [wtGlobTest, hw]
  | some p => simp [wtGlobTest, hw] at h

/-- A string-valued cross-tolerance property always leaves the shared regex
state reset: `test` either fails (resetting) or is followed by `match`
(which rescans from `0` and resets). -/
theorem mapCT_str_state (s : String) :
    ctResultState (mapCrossTolerance (.str s) 0) = 0 := by
  unfold mapCrossTolerance
  split
  next li2 heq =>
    have h1 : (wtGlobTest (jsToString (JVal.str s)) 0).2 = 0 :=
      wtGlobTest_snd_of_false _ _ (by rw [heq])
    rw [heq] at h1
    simpa [ctResultState] using h1
  next li2 heq =>
    show ctResultState
        (match List.mapM (fun m => wtExecInner m) (wtMatchAll s) with
          | some inners => Except.ok (("crossTolerances", JVal.arr (inners.map JVal.str)), 0)
          | none => Except.error ((), 0)) = 0
    split <;> rfl

/-- Dispatching any property from the reset regex state leaves the state
reset, provided a cross-tolerance property carries a string value. -/
theorem dispatch_state (map : JVal) (name : String) (v : JVal)
    (h : name = "cross-tolerance" → ∃ s, v = JVal.str s) :
    (dispatchProperty map name v 0).2 = 0 := by
  unfold dispatchProperty
  repeat' split
  all_goals try rfl
  all_goals (
    rename_i heq
    obtain ⟨s, hv⟩ := h (by assumption)
    subst hv
    have hs := mapCT_str_state s
    rw [heq] at hs
    simpa [ctResultState] using hs)

theorem fold_state (props : List (String × SMWVal)) :
    ∀ map : JVal,
      (∀ kv ∈ props, toLowerStr kv.1 = "cross-tolerance" → ∃ s, kv.2.prop = JVal.str s) →
      (props.foldl (fun acc p => dispatchProperty acc.1 (toLowerStr p.1) p.2.prop acc.2)
        (map, 0)).2 = 0 := by
  induction props with
  | nil => intro map _; rfl
  | cons p rest ih =>
    intro map h
    simp only [List.foldl]
    have hd : (dispatchProperty map (toLowerStr p.1) p.2.prop 0).2 = 0 :=
      dispatch_state _ _ _ (fun hc => h p (List.mem_cons_self _ _) hc)
    rcases hp : dispatchProperty map (toLowerStr p.1) p.2.prop 0 with ⟨m1, l1⟩
    rw [hp] at hd
    simp only at hd
    subst hd
    exact ih m1 (fun kv hkv => h kv (List.mem_cons_of_mem _ hkv))

/-- A full parse from the reset regex state ends with the state reset,
provided every cross-tolerance value is a string. -/
theorem parse_state (payload : JVal)
    (h : ∀ kv ∈ (transformerParse payload).2,
      toLowerStr kv.1 = "cross-tolerance" → ∃ s, kv.2.prop = JVal.str s) :
    (parseFromSMW payload 0).2 = 0 := by
  unfold parseFromSMW processProperties
  exact fold_state (transformerParse payload).2 (JVal.obj []) h

/-!
Claims C1 and C2.
-/

/-- C1, counterexample.  On the payload of the claim the parser does NOT
satisfy `roa.oral.dose.common = {min: 10, max: 20}` together with
`class.psychoactive = ["stimulant"]`: the code writes
`roa.<roa>.dose.<bound>.<intensity>` (group 3 before group 2), so there is no
`dose.common` key at all, and `_mapClass` turns `"stimulant_"` into
`"stimulant "` (trailing space). -/
theorem c1_counterexample :
    ¬ (jget c1record ["roa", "oral", "dose", "common", "min"] = some (jint 10)
       ∧ jget c1record ["class", "psychoactive"] = some (.arr [.str "stimulant"])) := by
  intro hc
  have h : jget c1record ["roa", "oral", "dose", "common", "min"] = none := rfl
  rw [h] at hc
  exact Option.noConfusion hc.1

/-- C1, amended.  For the claim's payload the parsed record satisfies:
`roa.oral.dose.min.common = 10`, `roa.oral.dose.max.common = 20` (the code
swaps intensity and bound in the path), no `roa.oral.dose.common` key,
`roa.oral.dose.units = "mg"`, `tolerance.half = "3 days"`,
`class.psychoactive = ["stimulant "]` (trailing space: `_` is replaced by a
space, not stripped), `dangerousInteractions = ["Alcohol", "Cocaine"]`, and
`roas` is exactly one entry whose `name` is `"oral"`. -/
theorem c1_theorem :
    jget c1record ["roa", "oral", "dose", "min", "common"] = some (jint 10)
    ∧ jget c1record ["roa", "oral", "dose", "max", "common"] = some (jint 20)
    ∧ jget c1record ["roa", "oral", "dose", "common"] = none
    ∧ jget c1record ["roa", "oral", "dose", "units"] = some (.str "mg")
    ∧ jget c1record ["tolerance", "half"] = some (.str "3 days")
    ∧ jget c1record ["class", "psychoactive"] = some (.arr [.str "stimulant "])
    ∧ jget c1record ["dangerousInteractions"] = some (.arr [.str "Alcohol", .str "Cocaine"])
    ∧ jget c1record ["roas"] = some (.arr [.obj
        [("dose", .obj [("min", .obj [("common", jint 10)]),
                        ("max", .obj [("common", jint 20)]),
                        ("units", .str "mg")]),
         ("name", .str "oral")]]) :=
  ⟨rfl, rfl, rfl, rfl, rfl, rfl, rfl, rfl⟩

/-- C2, counterexample.  Parsing `c2payloadArr` twice in succession from the
initial regex state yields structurally different records: the first parse
throws inside `prop.match` (the value is an array), falls back to the raw
`cross-tolerance` key and leaves `lastIndex = 5`; the second parse's `test`
then fails from position 5, resets, and yields `crossTolerances = []`. -/
theorem c2_counterexample :
    (parseFromSMW c2payloadArr ((parseFromSMW c2payloadArr 0).2)).1
      ≠ (parseFromSMW c2payloadArr 0).1 := by
  intro h
  have h2 : jget (parseFromSMW c2payloadArr ((parseFromSMW c2payloadArr 0).2)).1
      ["crossTolerances"] = some (.arr []) := rfl
  rw [h] at h2
  have h1 : jget (parseFromSMW c2payloadArr 0).1 ["crossTolerances"] = none := rfl
  rw [h1] at h2
  exact Option.noConfusion h2

/-- C2, amended.  For every upstream payload whose cross-tolerance property
values are strings (the single-valued upstream shape, covering in particular
values with one or more `[[link]]` occurrences), parsing twice in succession
from the initial regex state yields identical results: the shared global-flag
regex ends every such parse reset to `0`. -/
theorem c2_theorem (payload : JVal)
    (h : ∀ kv ∈ (transformerParse payload).2,
      toLowerStr kv.1 = "cross-tolerance" → ∃ s, kv.2.prop = JVal.str s) :
    parseFromSMW payload ((parseFromSMW payload 0).2) = parseFromSMW payload 0 := by
  rw [parse_state payload h]

/-- C2, witness: the string-valued payload with two `[[link]]` occurrences
satisfies the hypothesis, and its double parse is stable. -/
theorem c2_theorem_witness :
    parseFromSMW c2payloadStr ((parseFromSMW c2payloadStr 0).2) = parseFromSMW c2payloadStr 0 := by
  apply c2_theorem
  intro kv hkv hct
  have hl : (transformerParse c2payloadStr).2
      = [("Cross-tolerance", ⟨JVal.str "string", JVal.str "[[Stimulants]], [[x]]"⟩)] := rfl
  rw [hl] at hkv
  simp at hkv
  subst hkv
  exact ⟨"[[Stimulants]], [[x]]", rfl⟩

/-!
Claims C3 to C6: the stale-while-revalidate cache.
-/

/-- While a key is marked refreshing, every further `get` on the expired
entry returns the stale value, touches no producer, and leaves the state
unchanged. -/
theorem runGets_stale {α ε : Type} (key : String) (now ttl : Nat) (prod : Except ε α)
    (nd : Nat) (st : CacheState α) (t : Nat) (v : α)
    (hget : alistGet st.store key = some ⟨t, v⟩)
    (hexp : ttl < now - t)
    (hmem : key ∈ st.refreshing) :
    ∀ n, runGets key now ttl prod nd n st = (List.replicate n (.staleNoSpawn v), st) := by
  intro n
  induction n with
  | zero => rfl
  | succ k ih =>
    have hc : cacheGet st key now ttl prod nd = (.staleNoSpawn v, st) := by
      simp [cacheGet, hget, hexp, hmem]
    simp [runGets, hc, ih, List.replicate]

/-- C3.  N concurrent `get` calls on the same expired, unrefreshed key (their
synchronous parts serialised by the event loop, the slow producer still
pending): the first call spawns the producer in the background, the other
N − 1 see the refresh mark and spawn nothing, the producer is invoked exactly
once in total, and every call returns the previously stored value. -/
theorem c3_theorem {α ε : Type} (st : CacheState α) (key : String) (now ttl : Nat)
    (prod : Except ε α) (nd : Nat) (t : Nat) (v : α) (n : Nat)
    (hget : alistGet st.store key = some ⟨t, v⟩)
    (hexp : ttl < now - t)
    (hnr : key ∉ st.refreshing) :
    (runGets key now ttl prod nd (n + 1) st).1
        = .staleSpawn v :: List.replicate n (.staleNoSpawn v)
    ∧ (runGets key now ttl prod nd (n + 1) st).2
        = ⟨st.store, key :: st.refreshing⟩
    ∧ ((runGets key now ttl prod nd (n + 1) st).1.map producerCalls).sum = 1
    ∧ ∀ o ∈ (runGets key now ttl prod nd (n + 1) st).1, returnedValue o = some v := by
  have hc : cacheGet st key now ttl prod nd
      = (.staleSpawn v, ⟨st.store, key :: st.refreshing⟩) := by
    simp [cacheGet, hget, hexp, hnr]
  have hrest := runGets_stale key now ttl prod nd ⟨st.store, key :: st.refreshing⟩ t v
    (by simpa using hget) hexp (by simp) n
  refine ⟨?_, ?_, ?_, ?_⟩
  · simp [runGets, hc, hrest]
  · simp [runGets, hc, hrest]
  · simp [runGets, hc, hrest, producerCalls, List.map_replicate]
  · intro o ho
    simp [runGets, hc, hrest] at ho
    rcases ho with rfl | ⟨-, rfl⟩ <;> rfl

/-- A concrete cache state for the cache witnesses: one entry for `"k"`,
stored at time 0 with value 7, no refresh in flight. -/
def c3state : CacheState Nat := ⟨[("k", ⟨0, 7⟩)], []⟩

/-- C3, witness at `c3state` with `now = 100`, `ttl = 10`, three callers. -/
theorem c3_witness :
    (runGets "k" 100 10 (Except.ok 99 : Except String Nat) 100 (2 + 1) c3state).1
        = .staleSpawn 7 :: List.replicate 2 (.staleNoSpawn 7)
    ∧ (runGets "k" 100 10 (Except.ok 99 : Except String Nat) 100 (2 + 1) c3state).2
        = ⟨c3state.store, "k" :: c3state.refreshing⟩
    ∧ ((runGets "k" 100 10 (Except.ok 99 : Except String Nat) 100 (2 + 1) c3state).1.map
        producerCalls).sum = 1
    ∧ ∀ o ∈ (runGets "k" 100 10 (Except.ok 99 : Except String Nat) 100 (2 + 1) c3state).1,
        returnedValue o = some 7 :=
  c3_theorem c3state "k" 100 10 (Except.ok 99) 100 0 7 2 rfl (by decide) (by simp [c3state])

/-- C4.  A `get` that finds an expired entry with no refresh in flight
returns the stored stale value synchronously (the `staleSpawn` path contains
no await), marks the key and spawns the producer exactly once; when the
background task settles, success replaces the entry with the new value and
the fresh timestamp while failure leaves the stale entry untouched; in both
cases the refresh mark is cleared, and the caller has already received the
stale value either way (`backgroundComplete` has no error channel: the
`catch` only logs). -/
theorem c4_theorem {α ε : Type} (st : CacheState α) (key : String) (now ttl : Nat)
    (prod : Except ε α) (nd : Nat) (t : Nat) (v : α)
    (hget : alistGet st.store key = some ⟨t, v⟩)
    (hexp : ttl < now - t)
    (hnr : key ∉ st.refreshing) :
    cacheGet st key now ttl prod nd = (.staleSpawn v, ⟨st.store, key :: st.refreshing⟩)
    ∧ returnedValue (GetOutcome.staleSpawn v : GetOutcome α ε) = some v
    ∧ producerCalls (GetOutcome.staleSpawn v : GetOutcome α ε) = 1
    ∧ (∀ v2 nd2, backgroundComplete (⟨st.store, key :: st.refreshing⟩ : CacheState α) key
        (Except.ok v2 : Except ε α) nd2
        = ⟨alistSet st.store key ⟨nd2, v2⟩, st.refreshing⟩)
    ∧ (∀ e nd2, backgroundComplete (⟨st.store, key :: st.refreshing⟩ : CacheState α) key
        (Except.error e : Except ε α) nd2
        = ⟨st.store, st.refreshing⟩) := by
  refine ⟨?_, rfl, rfl, ?_, ?_⟩
  · simp [cacheGet, hget, hexp, hnr]
  · intro v2 nd2
    simp [backgroundComplete, fetchAndCache]
  · intro e nd2
    simp [backgroundComplete, fetchAndCache]

/-- C4, witness at `c3state`. -/
theorem c4_witness :
    cacheGet c3state "k" 100 10 (Except.ok 99 : Except String Nat) 100
        = (.staleSpawn 7, ⟨c3state.store, "k" :: c3state.refreshing⟩)
    ∧ returnedValue (GetOutcome.staleSpawn 7 : GetOutcome Nat String) = some 7
    ∧ producerCalls (GetOutcome.staleSpawn 7 : GetOutcome Nat String) = 1
    ∧ (∀ v2 nd2, backgroundComplete (⟨c3state.store, "k" :: c3state.refreshing⟩ : CacheState Nat)
        "k" (Except.ok v2 : Except String Nat) nd2
        = ⟨alistSet c3state.store "k" ⟨nd2, v2⟩, c3state.refreshing⟩)
    ∧ (∀ e nd2, backgroundComplete (⟨c3state.store, "k" :: c3state.refreshing⟩ : CacheState Nat)
        "k" (Except.error e : Except String Nat) nd2
        = ⟨c3state.store, c3state.refreshing⟩) :=
  c4_theorem c3state "k" 100 10 (Except.ok 99) 100 0 7 rfl (by decide) (by simp [c3state])

/-- C5.  A `get` with no entry for the key awaits the producer: on success it
stores `{value, timestamp = nowDone}` and returns the value; on failure the
error propagates to the caller and the store is unchanged (nothing stored,
no refresh mark touched). -/
theorem c5_theorem {α ε : Type} (st : CacheState α) (key : String) (now ttl nd : Nat)
    (hmiss : alistGet st.store key = none) :
    (∀ v : α, cacheGet st key now ttl (Except.ok v : Except ε α) nd
        = (.missAwait (.ok v), ⟨alistSet st.store key ⟨nd, v⟩, st.refreshing⟩))
    ∧ (∀ e : ε, cacheGet st key now ttl (Except.error e : Except ε α) nd
        = (.missAwait (.error e), st)) := by
  constructor <;> intro x <;> simp [cacheGet, fetchAndCache, hmiss]

/-- C5, witness on the empty cache. -/
theorem c5_witness :
    (∀ v : Nat, cacheGet (⟨[], []⟩ : CacheState Nat) "k" 50 10 (Except.ok v : Except String Nat) 60
        = (.missAwait (.ok v), ⟨alistSet [] "k" ⟨60, v⟩, []⟩))
    ∧ (∀ e : String, cacheGet (⟨[], []⟩ : CacheState Nat) "k" 50 10
        (Except.error e : Except String Nat) 60
        = (.missAwait (.error e), ⟨[], []⟩)) :=
  c5_theorem ⟨[], []⟩ "k" 50 10 60 rfl

/-- C6.  After a value was stored at time `t`, any `get` at `now` with
`now − t ≤ ttl` returns the stored value with zero producer invocations and
leaves the state untouched, whatever the producer would have done. -/
theorem c6_theorem {α ε : Type} (st : CacheState α) (key : String) (now ttl : Nat)
    (prod : Except ε α) (nd : Nat) (t : Nat) (v : α)
    (hget : alistGet st.store key = some ⟨t, v⟩)
    (hfresh : now - t ≤ ttl) :
    cacheGet st key now ttl prod nd = (.hit v, st)
    ∧ producerCalls (GetOutcome.hit v : GetOutcome α ε) = 0 := by
  refine ⟨?_, rfl⟩
  have hne : ¬ (ttl < now - t) := Nat.not_lt.mpr hfresh
  simp [cacheGet, hget, hne]

/-- C6, witness: a read 5 ms after the store with a 10 ms TTL. -/
theorem c6_witness :
    cacheGet c3state "k" 5 10 (Except.error "unused" : Except String Nat) 6 = (.hit 7, c3state)
    ∧ producerCalls (GetOutcome.hit 7 : GetOutcome Nat String) = 0 :=
  c6_theorem c3state "k" 5 10 (Except.error "unused") 6 0 7 rfl (by decide)

/-!
Claim C7: the retrying connector.
-/

/-- A successful attempt ends the loop at once, whatever the fuel. -/
theorem fetchLoop_ok_eq {α ε : Type} (a : Nat → Except ε α) (i fuel : Nat) (v : α)
    (h : a i = .ok v) : fetchLoop a i fuel = (.ok v, 1, []) := by
  cases fuel <;> simp only [fetchLoop, h]

/-- A failed attempt with fuel left waits `1000 × (i + 1)` ms and loops. -/
theorem fetchLoop_err_step {α ε : Type} (a : Nat → Except ε α) (i fuel : Nat) (e : ε)
    (h : a i = .error e) :
    fetchLoop a i (fuel + 1)
      = ((fetchLoop a (i + 1) fuel).1, (fetchLoop a (i + 1) fuel).2.1 + 1,
         1000 * (i + 1) :: (fetchLoop a (i + 1) fuel).2.2) := by
  simp only [fetchLoop, h]

theorem fetchLoop_attempts_le {α ε : Type} (a : Nat → Except ε α) :
    ∀ fuel i, (fetchLoop a i fuel).2.1 ≤ fuel + 1 := by
  intro fuel
  induction fuel with
  | zero =>
    intro i
    cases h : a i <;> simp [fetchLoop, h]
  | succ f ih =>
    intro i
    cases h : a i with
    | ok v => simp [fetchLoop_ok_eq a i (f + 1) v h]
    | error e =>
      rw [fetchLoop_err_step a i f e h]
      have := ih (i + 1)
      show (fetchLoop a (i + 1) f).2.1 + 1 ≤ f + 1 + 1
      omega

/-- C7.  `_fetchWithRetry` with the default `retries = 3` makes at most 4
HTTP attempts (1 + up to 3 retries); when the first two attempts fail and the
third succeeds it makes exactly three attempts, waiting 1000 ms before the
first retry and 2000 ms before the second (1000 × attempt number), and
feeding the result to the cache on a miss stores exactly one entry. -/
theorem c7_theorem {α ε : Type} (a : Nat → Except ε α) (e0 e1 : ε) (v : α) (url : String)
    (now ttl nd : Nat)
    (h0 : a 0 = .error e0) (h1 : a 1 = .error e1) (h2 : a 2 = .ok v) :
    fetchWithRetry a 3 = (.ok v, 3, [1000, 2000])
    ∧ (cacheGet (⟨[], []⟩ : CacheState α) url now ttl
        ((fetchWithRetry a 3).1 : Except ε α) nd).2.store = [(url, ⟨nd, v⟩)]
    ∧ (∀ a2 : Nat → Except ε α, (fetchWithRetry a2 3).2.1 ≤ 4) := by
  have hf : fetchWithRetry a 3 = (.ok v, 3, [1000, 2000]) := by
    have e0' := fetchLoop_err_step a 0 2 e0 h0
    have e1' := fetchLoop_err_step a 1 1 e1 h1
    have e2' := fetchLoop_ok_eq a 2 1 v h2
    unfold fetchWithRetry
    rw [show (3 : Nat) = 2 + 1 from rfl, e0', show (2 : Nat) = 1 + 1 from rfl, e1', e2']
  refine ⟨hf, ?_, ?_⟩
  · rw [hf]
    simp [cacheGet, fetchAndCache, alistGet, alistSet]
  · intro a2
    exact fetchLoop_attempts_le a2 3 0

/-- The attempt sequence of the C7 witness: two failures then success. -/
def c7attempt : Nat → Except String Nat :=
  fun i => if i < 2 then .error "HTTP 500" else .ok 42

/-- C7, witness. -/
theorem c7_witness :
    fetchWithRetry c7attempt 3 = (.ok 42, 3, [1000, 2000])
    ∧ (cacheGet (⟨[], []⟩ : CacheState Nat) "https://psychonautwiki.org/w/api.php?action=ask"
        0 0 ((fetchWithRetry c7attempt 3).1 : Except String Nat) 5).2.store
        = [("https://psychonautwiki.org/w/api.php?action=ask", ⟨5, 42⟩)]
    ∧ (∀ a2 : Nat → Except String Nat, (fetchWithRetry a2 3).2.1 ≤ 4) :=
  c7_theorem c7attempt "HTTP 500" "HTTP 500" 42
    "https://psychonautwiki.org/w/api.php?action=ask" 0 0 5 rfl rfl rfl

/-!
Claims C8 and C9: the substances query composer.
-/

/-- The direct lookup `[[:X]]` with pagination, as the service renders it. -/
def directAskQuery (X : String) (limit offset : Option Int) : String :=
  "[[" ++ (":" ++ X) ++ "]]" ++ renderPagination limit offset

/-- The first fallback lookup. -/
def commonAskQuery (X : String) (limit offset : Option Int) : String :=
  "[[common_name::" ++ X ++ "]]|[[Category:psychoactive_substance]]"
    ++ renderPagination limit offset

/-- The second fallback lookup. -/
def systematicAskQuery (X : String) (limit offset : Option Int) : String :=
  "[[systematic_name::" ++ X ++ "]]|[[Category:psychoactive_substance]]"
    ++ renderPagination limit offset

/-- The `query.results` object of an `ask` response. -/
def askResults (oracle : Oracle) (q : String) : JVal :=
  jgetD (oracle (.ask q)) ["query", "results"] (.obj [])

/-- C8.  On the query branch with an empty direct result set, the service
issues the `common_name` fallback; if that is non-empty it stops there and
returns its enriched projection (two `ask` lookups in total, then the
enrichment's `browsebysubject` calls); only if it is also empty does it issue
the `systematic_name` fallback and return that projection enriched, empty or
not (three `ask` lookups in total). -/
theorem c8_theorem (oracle : Oracle) (X : String) (limit offset : Option Int) (li : Nat)
    (hX : X ≠ "")
    (h1 : jsIsEmpty (askResults oracle (directAskQuery X limit offset)) = true) :
    (jsIsEmpty (askResults oracle (commonAskQuery X limit offset)) = false →
      getSubstances oracle ⟨none, none, none, some X, limit, offset⟩ li
        = (.ok (enrichResults oracle (askResults oracle (commonAskQuery X limit offset)) li).1,
           [.ask (directAskQuery X limit offset), .ask (commonAskQuery X limit offset)]
             ++ (enrichResults oracle (askResults oracle (commonAskQuery X limit offset)) li).2.1,
           (enrichResults oracle (askResults oracle (commonAskQuery X limit offset)) li).2.2))
    ∧ (jsIsEmpty (askResults oracle (commonAskQuery X limit offset)) = true →
      getSubstances oracle ⟨none, none, none, some X, limit, offset⟩ li
        = (.ok (enrichResults oracle (askResults oracle (systematicAskQuery X limit offset)) li).1,
           [.ask (directAskQuery X limit offset), .ask (commonAskQuery X limit offset),
            .ask (systematicAskQuery X limit offset)]
             ++ (enrichResults oracle (askResults oracle (systematicAskQuery X limit offset)) li).2.1,
           (enrichResults oracle (askResults oracle (systematicAskQuery X limit offset)) li).2.2)) := by
  refine ⟨fun h2 => ?_, fun h2 => ?_⟩
  all_goals
    simp only [getSubstances, lookupWithPagination, askResults, directAskQuery,
      commonAskQuery, systematicAskQuery] at h1 h2 ⊢
  all_goals simp [optTruthy, jsTemplateOptStr, hX, h1, h2]

/-- The oracle of the C8 witness: the direct lookup is empty, the
`common_name` fallback finds one page, `browsebysubject` returns an empty
property list. -/
def c8oracle : Oracle := fun p =>
  match p with
  | .ask q =>
    if q = commonAskQuery "Foo" (some 1) none then
      .obj [("query", .obj [("results", .obj [("Foo", .obj
        [("fulltext", .str "Foo"),
         ("fullurl", .str "https://psychonautwiki.org/wiki/Foo")])])])]
    else .obj [("query", .obj [("results", .obj [])])]
  | .browse _ => .obj [("query", .obj [("subject", .str "Foo#0#"), ("data", .arr [])])]

/-- C8, witness: the first-fallback case at a concrete oracle. -/
theorem c8_witness :
    getSubstances c8oracle ⟨none, none, none, some "Foo", some 1, none⟩ 0
      = (.ok (enrichResults c8oracle
            (askResults c8oracle (commonAskQuery "Foo" (some 1) none)) 0).1,
         [.ask (directAskQuery "Foo" (some 1) none), .ask (commonAskQuery "Foo" (some 1) none)]
           ++ (enrichResults c8oracle
            (askResults c8oracle (commonAskQuery "Foo" (some 1) none)) 0).2.1,
         (enrichResults c8oracle
            (askResults c8oracle (commonAskQuery "Foo" (some 1) none)) 0).2.2) :=
  (c8_theorem c8oracle "Foo" (some 1) none 0 (by decide) rfl).1 rfl

/-- The oracle of the C9 witness (never reached). -/
def c9oracle : Oracle := fun _ => .obj []

/-- C9.  When at least two of the four selectors are truthy, `getSubstances`
throws the BadInput error before any connector call: the trace of issued
upstream requests is empty and the state is untouched. -/
theorem c9_theorem (oracle : Oracle) (a : SubstancesArgs) (li : Nat)
    (h : 2 ≤ ([a.effect, a.query, a.chemicalClass, a.psychoactiveClass].filter optTruthy).length) :
    getSubstances oracle a li
      = (.error "Substances: `chemicalClass`, `psychoactiveClass`, `effect` and `query` are mutually exclusive.",
         [], li) := by
  simp [getSubstances, h]

/-- C9, witness: `chemicalClass` and `query` both set. -/
theorem c9_witness :
    getSubstances c9oracle ⟨some "substituted amphetamines", none, none, some "LSD", none, none⟩ 0
      = (.error "Substances: `chemicalClass`, `psychoactiveClass`, `effect` and `query` are mutually exclusive.",
         [], 0) :=
  c9_theorem c9oracle ⟨some "substituted amphetamines", none, none, some "LSD", none, none⟩ 0
    (by decide)

/-!
Claim C10: the interaction resolver.
-/

/-- C10.  `resolveInteractions` returns `null` (not a list, in particular not
an empty array) whenever the parent field is not an array; on an array it
returns a list with exactly one entry per input name, in input order: the
single found substance when the lookup returns exactly one, the `{name}` stub
otherwise. -/
theorem c10_theorem (lookup : JVal → List JVal) (v : JVal) (names : List JVal)
    (hv : ∀ xs, v ≠ JVal.arr xs) :
    resolveInteractions lookup v = none
    ∧ (∃ l, resolveInteractions lookup (.arr names) = some l
        ∧ l.length = names.length
        ∧ ∀ (i : Nat) (name : JVal), names[i]? = some name →
            l[i]? = some (match lookup name with
                          | [r] => r
                          | _ => .obj [("name", name)])) := by
  constructor
  · cases v with
    | arr xs => exact absurd rfl (hv xs)
    | null => rfl
    | undef => rfl
    | bool b => rfl
    | num m => rfl
    | nan => rfl
    | str s => rfl
    | obj fs => rfl
  · refine ⟨names.map (fun name =>
      match lookup name with
      | [r] => r
      | _ => .obj [("name", name)]), rfl, by simp, ?_⟩
    intro i name hname
    simp [List.getElem?_map, hname]

/-- The lookup oracle of the C10 witness: `"Cocaine"` resolves to exactly one
substance, everything else to no substance. -/
def c10lookup : JVal → List JVal :=
  fun name =>
    match name with
    | .str "Cocaine" => [.obj [("name", .str "Cocaine"),
        ("url", .str "https://psychonautwiki.org/wiki/Cocaine")]]
    | _ => []

/-- C10, witness: an absent (`undefined`) field yields `null`, and a
two-element array yields a two-element list (one resolved, one stub). -/
theorem c10_witness :
    resolveInteractions c10lookup JVal.undef = none
    ∧ (∃ l, resolveInteractions c10lookup (.arr [.str "Cocaine", .str "Unknown"]) = some l
        ∧ l.length = ([JVal.str "Cocaine", JVal.str "Unknown"] : List JVal).length
        ∧ ∀ (i : Nat) (name : JVal),
            ([JVal.str "Cocaine", JVal.str "Unknown"] : List JVal)[i]? = some name →
            l[i]? = some (match c10lookup name with
                          | [r] => r
                          | _ => .obj [("name", name)])) :=
  c10_theorem c10lookup JVal.undef [.str "Cocaine", .str "Unknown"]
    (fun _ h => JVal.noConfusion h)

end Bifrost
